import Mathlib

/-!
Verification of the field-to-binding-name resolution and path-hygiene core
of the gfx_macros crate (src/src/lib.rs), shallowly embedded in Lean 4.

The embedding mirrors, definition by definition:
  * `find_name`            (lib.rs, lines 47-69): the fold over a field's
    attributes that extracts the binding name, warns on conflicts and marks
    qualifying attributes used;
  * `EXTERN_CRATE_HACK`    (lib.rs, line 72): the reserved marker string;
  * `extern_crate_hack`    (lib.rs, lines 76-117): generation of the unique
    reexport module (the gensym interner is modelled by an explicit counter);
  * `ExternCrateHackFolder::fold_path` (lib.rs, lines 126-154): the hygiene
    rewrite, including the recursion into segment parameters performed by
    `syntax::fold::noop_fold_path`.
Parts of the derivation pipeline that live outside this file in the crate
(the `shader_param` / `vertex_format` modules) are modelled from the spec
and carry a doc comment saying so.
-/

namespace Gfx

/-! ## Attribute model (syntax::ast metadata items, as used by `find_name`) -/

/-- A literal node attached to a `key = value` attribute: either a string
literal (`ast::LitStr`) or any other literal kind. -/
inductive LitNode where
  | litStr (value : String)
  | otherLit
  deriving DecidableEq, Repr

/-- The shape of an attribute body (`attrib.node.value.node`): a
`key = literal` pair (`ast::MetaNameValue`) or any other meta item
(`MetaWord`, `MetaList`). -/
inductive MetaNode where
  | metaNameValue (key : String) (lit : LitNode)
  | metaOther
  deriving DecidableEq, Repr

/-- One attribute attached to a field (`ast::Attribute`, restricted to the
body that `find_name` inspects). -/
structure Attribute where
  node : MetaNode
  deriving DecidableEq, Repr

/-- The observable state threaded through `find_name`'s fold: the fold
accumulator (`name`), the warnings emitted through `cx.span_warn` (each
recorded as the pair of the new and the retained name quoted by the
message), and the attributes passed to `attr::mark_used`, in call order. -/
structure FindAcc where
  name : Option String
  warnings : List (String × String)
  used : List Attribute
  deriving DecidableEq, Repr

/-- One step of the fold inside `find_name` (lib.rs, lines 49-68).
The branches mirror the Rust match:
  * `MetaNameValue ("name", LitStr new_name)`: mark the attribute used,
    then `name.map_or(Some(new_name), |name| { warn; None })` — note the
    closure returns `None`, so a conflict resets the accumulator;
  * any other `MetaNameValue`: the wildcard arm returns `None`;
  * any other attribute shape: the accumulator is passed through. -/
def find_step (acc : FindAcc) (attrib : Attribute) : FindAcc :=
  match attrib.node with
  | MetaNode.metaNameValue attr_name attr_value =>
    match attr_name, attr_value with
    | "name", LitNode.litStr new_name =>
      let acc := { acc with used := acc.used ++ [attrib] }
      match acc.name with
      | none => { acc with name := some new_name }
      | some prev =>
        { acc with name := none, warnings := acc.warnings ++ [(new_name, prev)] }
    | _, _ => { acc with name := none }
  | MetaNode.metaOther => acc

/-- `find_name` (lib.rs, lines 47-69): fold the step over the field's
attributes starting from `None`, with no warnings emitted and no
attributes marked used yet. -/
def find_name (attributes : List Attribute) : FindAcc :=
  attributes.foldl find_step { name := none, warnings := [], used := [] }

/-- An attribute qualifies for name resolution when it is
`name = "<string literal>"` — the only arm of `find_name`'s match that
produces a name, warns, or marks the attribute used. -/
def qualifies (attrib : Attribute) : Bool :=
  match attrib.node with
  | MetaNode.metaNameValue "name" (LitNode.litStr _) => true
  | _ => false

/-! ## Path model and the `ExternCrateHackFolder` hygiene rewrite

`ast::Path` is a global flag plus a list of segments; each segment is an
identifier plus parameters (generic arguments), which can themselves
contain paths. `syntax::fold::noop_fold_path` maps the folder over every
segment: the identifier through `fold_ident` (a no-op for this folder) and
the parameters through `fold_ty`, which re-enters `fold_path` on every
path type among them. The model keeps exactly the parts this folder can
observe or change: the global flag, the segment identifiers and the nested
paths among the generic arguments. -/

mutual
/-- `ast::Path`: a global flag and a list of segments. -/
inductive Path where
  | mk (global : Bool) (segments : List PathSegment)
/-- `ast::PathSegment`: an identifier and the paths nested in its generic
arguments (the part of `ast::PathParameters` that `fold_path` reaches). -/
inductive PathSegment where
  | mk (identifier : String) (parameters : List Path)
end

def Path.global : Path → Bool
  | Path.mk g _ => g

def Path.segments : Path → List PathSegment
  | Path.mk _ s => s

def PathSegment.identifier : PathSegment → String
  | PathSegment.mk i _ => i

def PathSegment.parameters : PathSegment → List Path
  | PathSegment.mk _ p => p

/-- Marker string to base the unique identifier generated by
`extern_crate_hack` on (lib.rs, line 72). -/
def EXTERN_CRATE_HACK : String := "__gfx_extern_crate_hack"

/-- `p.segments.get(0).map(|s| s.identifier.as_str() == EXTERN_CRATE_HACK).unwrap_or(false)`
(lib.rs, lines 129-131). -/
def needs_fix (segs : List PathSegment) : Bool :=
  ((segs.get? 0).map (fun s => s.identifier == EXTERN_CRATE_HACK)).getD false

/-- First segment is `self` and the second is the marker
(lib.rs, lines 132-137). -/
def needs_fix_self (segs : List PathSegment) : Bool :=
  (((segs.get? 0).map (fun s => s.identifier == "self")).getD false) &&
  (((segs.get? 1).map (fun s => s.identifier == EXTERN_CRATE_HACK)).getD false)

/-- Overwrite a segment's identifier, keeping its parameters
(`p.segments[i].identifier = self.path_root`). -/
def set_identifier (path_root : String) : PathSegment → PathSegment
  | PathSegment.mk _ ps => PathSegment.mk path_root ps

/-- Apply a function to the list element at an index, as the Rust
assignment `p.segments[i].identifier = ...` does in place. -/
def modify_at : List PathSegment → Nat → (PathSegment → PathSegment) → List PathSegment
  | [], _, _ => []
  | s :: rest, 0, f => f s :: rest
  | s :: rest, Nat.succ n, f => s :: modify_at rest n f

/-- The non-recursive tail of `fold_path` (lib.rs, lines 139-152): after
the noop fold, replace the marker segment (position 0, or position 1
after a `self` head) with `path_root` and clear the global flag;
otherwise return the path as is. -/
def fixup_path (path_root : String) (p : Path) : Path :=
  if needs_fix p.segments then
    Path.mk false (modify_at p.segments 0 (set_identifier path_root))
  else if needs_fix_self p.segments then
    Path.mk false (modify_at p.segments 1 (set_identifier path_root))
  else p

mutual
/-- `ExternCrateHackFolder::fold_path` (lib.rs, lines 127-153): first
`noop_fold_path` (which maps this very folder over every nested path in
the segments' generic arguments), then the marker fixup on the result. -/
def fold_path (path_root : String) : Path → Path
  | Path.mk g segs => fixup_path path_root (Path.mk g (fold_segments path_root segs))
/-- The segment-list part of `noop_fold_path`. -/
def fold_segments (path_root : String) : List PathSegment → List PathSegment
  | [] => []
  | s :: rest => fold_segment path_root s :: fold_segments path_root rest
/-- One segment under `noop_fold_path`: identifier kept (this folder does
not override `fold_ident`), parameters folded. -/
def fold_segment (path_root : String) : PathSegment → PathSegment
  | PathSegment.mk id ps => PathSegment.mk id (fold_params path_root ps)
/-- The paths among one segment's generic arguments, each re-entering
`fold_path` (via the default `fold_ty`). -/
def fold_params (path_root : String) : List Path → List Path
  | [] => []
  | p :: rest => fold_path path_root p :: fold_params path_root rest
end

mutual
/-- A path is untouched by the rewrite when neither it nor any path nested
in its generic arguments starts with the marker (or with `self` followed
by the marker). -/
def path_clean : Path → Bool
  | Path.mk _ segs => !(needs_fix segs) && !(needs_fix_self segs) && segs_clean segs
def segs_clean : List PathSegment → Bool
  | [] => true
  | s :: rest => seg_clean s && segs_clean rest
def seg_clean : PathSegment → Bool
  | PathSegment.mk _ ps => params_clean ps
def params_clean : List Path → Bool
  | [] => true
  | p :: rest => path_clean p && params_clean rest
end

/-! ## Identifiers, gensym and the extern-crate hack module -/

/-- `ast::Ident` as observed here: the interned text plus the serial that
distinguishes `token::gensym_ident` results from one another. Pretty
printing — and hence every emitted byte — uses only the text. -/
structure Ident where
  text : String
  serial : Nat
  deriving DecidableEq, Repr

/-- `token::str_to_ident` / `ExtCtxt::ident_of`: an ordinary interned
identifier. -/
def str_to_ident (s : String) : Ident := ⟨s, 0⟩

/-- `token::gensym_ident`: a fresh identifier carrying the given text.
The interner is global mutable state in rustc; it is modelled by the
counter threaded through explicitly. -/
def gensym_ident (s : String) (counter : Nat) : Ident × Nat :=
  (⟨s, counter + 1⟩, counter + 1)

/-- The two item shapes built inside the hack module:
`extern crate gfx_ = "gfx";` (`ast::ItemExternCrate`) and
`pub use self::gfx_ as gfx;` (`item_use_simple_`). -/
inductive ItemNode where
  | itemExternCrate (source : Option String)
  | itemUse (path : List Ident)
  deriving DecidableEq, Repr

/-- One item: visibility (`true` for `ast::Public`), name, body. -/
structure SimpleItem where
  vis : Bool
  ident : Ident
  node : ItemNode
  deriving DecidableEq, Repr

/-- The module item `extern_crate_hack` pushes. -/
structure ModItem where
  ident : Ident
  items : List SimpleItem
  deriving DecidableEq, Repr

/-- `extern_crate_hack` (lib.rs, lines 76-117): gensym the marker, build
`mod <gensym> { extern crate gfx_ = "gfx"; pub use self::gfx_ as gfx; }`,
push the module (modelled by returning it) and hand back the gensym
identifier. -/
def extern_crate_hack (counter : Nat) : Ident × ModItem × Nat :=
  let (ech, counter') := gensym_ident EXTERN_CRATE_HACK counter
  (ech,
   { ident := ech,
     items :=
       [{ vis := false, ident := str_to_ident "gfx_",
          node := ItemNode.itemExternCrate (some "gfx") },
        { vis := true, ident := str_to_ident "gfx",
          node := ItemNode.itemUse [str_to_ident "self", str_to_ident "gfx_"] }] },
   counter')

/-- Pretty-printing an identifier emits its text; gensym serials are
invisible in the output bytes. -/
def render_ident (i : Ident) : String := i.text

def render_path_idents (p : List Ident) : String :=
  String.intercalate "::" (p.map render_ident)

def render_item (it : SimpleItem) : String :=
  (if it.vis then "pub " else "") ++
  (match it.node with
   | ItemNode.itemExternCrate (some s) =>
     "extern crate " ++ render_ident it.ident ++ " = \"" ++ s ++ "\";"
   | ItemNode.itemExternCrate none =>
     "extern crate " ++ render_ident it.ident ++ ";"
   | ItemNode.itemUse p =>
     "use " ++ render_path_idents p ++ " as " ++ render_ident it.ident ++ ";")

def render_mod (m : ModItem) : String :=
  "mod " ++ render_ident m.ident ++ " \x7b " ++
  String.intercalate " " (m.items.map render_item) ++ " \x7d"

/-! ## Pipeline parts that live outside src/src/lib.rs

The `shader_param` and `vertex_format` modules (declared at lib.rs lines
29-30) are not part of the sources; the classifier, table builder and
synthesizer below are therefore modelled from the spec and settle the
claims that cite those components. -/

/-- Modelled from the spec (§3, §4.2): a field's declared type reference,
with the shapes the Field Classifier recognizes and a catch-all carrying
the textual form of an unsupported type. -/
inductive TyRef where
  | scalar
  | vector (n : Nat)
  | matrix (rows cols : Nat)
  | textureHandle
  | bufferHandle
  | attribValue
  | unsupported (printed : String)
  deriving DecidableEq, Repr

/-- Modelled from the spec (§3): the binding-kind enumeration. -/
inductive BindingKindTag where
  | uniformScalar
  | uniformVector
  | uniformMatrix
  | texture
  | rawBuffer
  | vertexAttrib
  deriving DecidableEq, Repr

/-- Modelled from the spec (§4.2): the textual form of a declared type,
carried by UnsupportedType diagnostics. -/
def ty_form : TyRef → String
  | TyRef.scalar => "scalar"
  | TyRef.vector n => "vector " ++ toString n
  | TyRef.matrix r c => "matrix " ++ toString r ++ "x" ++ toString c
  | TyRef.textureHandle => "texture handle"
  | TyRef.bufferHandle => "buffer handle"
  | TyRef.attribValue => "attribute value"
  | TyRef.unsupported s => s

/-- Modelled from the spec (§7): the diagnostic taxonomy. -/
inductive Diagnostic where
  | nameConflict (newName retained : String)
  | unsupportedType (fieldIdent : String) (form : String)
  | duplicateBindingName (logicalName : String) (fieldIdent : String)
  deriving DecidableEq, Repr

/-- Modelled from the spec (§4.2): the Field Classifier — a fixed, total
set of structural rules mapping a declared type's shape to exactly one
tag; a shape matching no rule fails with the offending type's textual
form (the builder attaches the field's source attribution). -/
def classify : TyRef → Except String BindingKindTag
  | TyRef.scalar => Except.ok BindingKindTag.uniformScalar
  | TyRef.vector _ => Except.ok BindingKindTag.uniformVector
  | TyRef.matrix _ _ => Except.ok BindingKindTag.uniformMatrix
  | TyRef.textureHandle => Except.ok BindingKindTag.texture
  | TyRef.bufferHandle => Except.ok BindingKindTag.rawBuffer
  | TyRef.attribValue => Except.ok BindingKindTag.vertexAttrib
  | TyRef.unsupported s => Except.error s

/-- A field declaration as the spec's data model (§3) describes it. -/
structure FieldDeclaration where
  ident : String
  ty : TyRef
  attrs : List Attribute
  deriving DecidableEq, Repr

/-- A structure declaration (§3). -/
structure StructureDeclaration where
  name : String
  fields : List FieldDeclaration
  deriving DecidableEq, Repr

/-- The logical binding name of a field (§4.1, §4.3): `find_name` over its
attributes, defaulting to the field's own identifier on `None`. -/
def resolve_logical_name (f : FieldDeclaration) : String :=
  ((find_name f.attrs).name).getD f.ident

/-- One row of the binding table (§3). -/
structure BindingEntry where
  fieldIdent : String
  logicalName : String
  kind : BindingKindTag
  ty : TyRef
  deriving DecidableEq, Repr

/-- Modelled from the spec (§4.3): the per-field pass of the Binding Table
Builder — resolve the name and classify the type, in field order; a
classification failure records an UnsupportedType diagnostic and excludes
only that field. -/
def build_entries : List FieldDeclaration → List BindingEntry × List Diagnostic
  | [] => ([], [])
  | f :: rest =>
    match classify f.ty with
    | Except.ok tag =>
      ({ fieldIdent := f.ident, logicalName := resolve_logical_name f,
         kind := tag, ty := f.ty } :: (build_entries rest).1,
       (build_entries rest).2)
    | Except.error form =>
      ((build_entries rest).1,
       Diagnostic.unsupportedType f.ident form :: (build_entries rest).2)

/-- Modelled from the spec (§4.3): the duplicate scan — every assembled
entry whose resolved name already appeared on an earlier entry yields a
DuplicateBindingName diagnostic ("binding name already used"). -/
def dup_diags : List BindingEntry → List Diagnostic
  | [] => []
  | e :: rest =>
    ((rest.filter (fun e2 => e2.logicalName == e.logicalName)).map
      (fun e2 => Diagnostic.duplicateBindingName e2.logicalName e2.fieldIdent)) ++
    dup_diags rest

/-- Modelled from the spec (§4.3): `build_table` — assemble the entries,
run the duplicate scan, and if any error diagnostic was recorded return
the full diagnostic set instead of a table. -/
def build_table (fields : List FieldDeclaration) :
    Except (List Diagnostic) (List BindingEntry) :=
  let diags := (build_entries fields).2 ++ dup_diags (build_entries fields).1
  if diags.isEmpty then Except.ok (build_entries fields).1 else Except.error diags

/-- Modelled from the spec (§4.4): rendering of a binding kind inside the
generated code. -/
def tag_form : BindingKindTag → String
  | BindingKindTag.uniformScalar => "uniform scalar"
  | BindingKindTag.uniformVector => "uniform vector"
  | BindingKindTag.uniformMatrix => "uniform matrix"
  | BindingKindTag.texture => "texture"
  | BindingKindTag.rawBuffer => "raw buffer"
  | BindingKindTag.vertexAttrib => "vertex attribute"

/-- Modelled from the spec (§4.4): the Code Synthesizer — a pure function
of the structure name, the extern-crate-hack root identifier and the
binding table, emitting per entry (in table order) a bind-time lookup by
logical name and kind and a value access for the field. -/
def synthesize (structName : String) (root : Ident) (table : List BindingEntry) : String :=
  "impl ShaderParam for " ++ structName ++ " \x7b " ++
  String.intercalate " "
    (table.map (fun e =>
      "bind " ++ e.logicalName ++ " : " ++ tag_form e.kind ++ " via " ++
      render_ident root ++ "::gfx; access " ++ e.fieldIdent ++ ";")) ++
  " \x7d"

/-- Modelled from the spec (§2, §4.4): one structure's derivation — create
the extern-crate-hack module, build the binding table, and only on a valid
table invoke the synthesizer; on an invalid table return only the
diagnostics. The interner counter is the only ambient state touched. -/
def derive (decl : StructureDeclaration) (counter : Nat) :
    Except (List Diagnostic) String × Nat :=
  let (ech, modItem, counter') := extern_crate_hack counter
  match build_table decl.fields with
  | Except.ok table =>
    (Except.ok (render_mod modItem ++ " " ++ synthesize decl.name ech table), counter')
  | Except.error ds => (Except.error ds, counter')

/-- Concrete field `color: Vec4` with a `name = "X"` annotation. -/
def sample_field_a : FieldDeclaration :=
  { ident := "color", ty := TyRef.vector 4,
    attrs := [⟨MetaNode.metaNameValue "name" (LitNode.litStr "X")⟩] }

/-- Concrete field `tex: TextureHandle` with a `name = "X"` annotation. -/
def sample_field_b : FieldDeclaration :=
  { ident := "tex", ty := TyRef.textureHandle,
    attrs := [⟨MetaNode.metaNameValue "name" (LitNode.litStr "X")⟩] }

/-- Observer: the identifier heading the first path nested in the first
segment's generic arguments (used to exhibit nested rewrites). -/
def first_param_head : Path → Option String
  | Path.mk _ (PathSegment.mk _ (Path.mk _ (s :: _) :: _) :: _) => some s.identifier
  | _ => none

/-- Observer: the identifier of the second segment of a path. -/
def second_segment_ident : Path → Option String
  | Path.mk _ (_ :: s :: _) => some s.identifier
  | _ => none

/-! ### Basic lemmas about the fold -/

theorem find_step_used (acc : FindAcc) (a : Attribute) :
    (find_step acc a).used = acc.used ++ (if qualifies a then [a] else []) := by
  rcases a with ⟨node⟩
  cases node with
  | metaNameValue k v =>
    cases v with
    | litStr s =>
      by_cases hk : k = "name"
      · subst hk
        cases h : acc.name <;> simp [find_step, qualifies, h]
      · simp [find_step, qualifies, hk]
    | otherLit =>
      by_cases hk : k = "name"
      · subst hk; simp [find_step, qualifies]
      · simp [find_step, qualifies, hk]
  | metaOther => simp [find_step, qualifies]

theorem foldl_find_step_used (attrs : List Attribute) :
    ∀ acc : FindAcc,
      (attrs.foldl find_step acc).used = acc.used ++ attrs.filter qualifies := by
  induction attrs with
  | nil => intro acc; simp
  | cons a rest ih =>
    intro acc
    by_cases hq : qualifies a
    · simp [List.foldl_cons, ih, find_step_used, hq]
    · simp [List.foldl_cons, ih, find_step_used, hq]

theorem find_step_name_none (acc : FindAcc) (a : Attribute)
    (hq : qualifies a = false) (h : acc.name = none) :
    (find_step acc a).name = none := by
  rcases a with ⟨node⟩
  cases node with
  | metaNameValue k v =>
    cases v with
    | litStr s =>
      by_cases hk : k = "name"
      · subst hk; simp [qualifies] at hq
      · simp [find_step, hk]
    | otherLit =>
      by_cases hk : k = "name"
      · subst hk; simp [find_step]
      · simp [find_step, hk]
  | metaOther => simpa [find_step] using h

theorem foldl_find_step_name_none (attrs : List Attribute)
    (hq : ∀ a ∈ attrs, qualifies a = false) :
    ∀ acc : FindAcc, acc.name = none →
      (attrs.foldl find_step acc).name = none := by
  induction attrs with
  | nil => intro acc h; simpa using h
  | cons a rest ih =>
    intro acc h
    simp only [List.foldl_cons]
    exact ih (fun b hb => hq b (List.mem_cons_of_mem a hb))
      _ (find_step_name_none acc a (hq a (List.mem_cons_self a rest)) h)

/-! ### Claims about `find_name` -/

/-- C1 (code divergence, evaluated at the failing input): for a field with
annotations `name = "A"` then `name = "B"`, `find_name` returns `None` —
not `Some "A"` as the claim (and the function's own doc comment, "use the
first name") states — while emitting exactly one warning that references
both `"B"` and `"A"`. The conflict arm of the fold returns `None`,
resetting the accumulator instead of keeping the first name. -/
theorem find_name_conflict_drops_first_name :
    find_name
      [⟨MetaNode.metaNameValue "name" (LitNode.litStr "A")⟩,
       ⟨MetaNode.metaNameValue "name" (LitNode.litStr "B")⟩]
    = { name := none,
        warnings := [("B", "A")],
        used := [⟨MetaNode.metaNameValue "name" (LitNode.litStr "A")⟩,
                 ⟨MetaNode.metaNameValue "name" (LitNode.litStr "B")⟩] } := by
  rfl

/-- C2 (code divergence, evaluated at the failing input): a non-qualifying
annotation is not without effect. For `[name = "A", other = "B"]` the
result differs from the result on the same list with the non-qualifying
annotation removed: the wildcard arm of the inner match returns `None`,
wiping the name already found, so the full list resolves to no name while
the filtered list resolves to `Some "A"`. -/
theorem find_name_not_invariant_under_nonqualifying :
    find_name
        [⟨MetaNode.metaNameValue "name" (LitNode.litStr "A")⟩,
         ⟨MetaNode.metaNameValue "other" (LitNode.litStr "B")⟩]
      ≠ find_name
        (List.filter qualifies
          [⟨MetaNode.metaNameValue "name" (LitNode.litStr "A")⟩,
           ⟨MetaNode.metaNameValue "other" (LitNode.litStr "B")⟩]) := by
  decide

/-- C3 (code divergence, evaluated at the failing input): a field whose
attribute list holds exactly one qualifying annotation `name = "X"` — and
one non-qualifying `doc = "y"` annotation after it — resolves to `None`
with zero diagnostics, not to `Some "X"`: the non-qualifying
`MetaNameValue` arm discards the already-found name. -/
theorem find_name_single_annotation_broken_by_following :
    (find_name
        [⟨MetaNode.metaNameValue "name" (LitNode.litStr "X")⟩,
         ⟨MetaNode.metaNameValue "doc" (LitNode.litStr "y")⟩]).name = none
    ∧ (find_name
        [⟨MetaNode.metaNameValue "name" (LitNode.litStr "X")⟩,
         ⟨MetaNode.metaNameValue "doc" (LitNode.litStr "y")⟩]).warnings = []
    ∧ (find_name
        [⟨MetaNode.metaNameValue "name" (LitNode.litStr "X")⟩]).name = some "X" := by
  decide

/-- C4: for a field with no qualifying name annotation — whatever mix of
other attribute shapes it carries, the empty list included — `find_name`
returns `None` (the caller's signal to default to the field identifier)
and emits no warning. -/
theorem find_name_none_without_qualifying (attrs : List Attribute)
    (hq : ∀ a ∈ attrs, qualifies a = false) :
    (find_name attrs).name = none := by
  exact foldl_find_step_name_none attrs hq _ rfl

/-- Witness for C4 at a concrete input: a field carrying one non-meta-pair
attribute and one `doc = "y"` annotation (no qualifying annotation)
resolves to `None`. -/
theorem find_name_none_without_qualifying_witness :
    (∀ a ∈ ([⟨MetaNode.metaOther⟩,
             ⟨MetaNode.metaNameValue "doc" (LitNode.litStr "y")⟩] :
        List Attribute), qualifies a = false)
    ∧ (find_name
        [⟨MetaNode.metaOther⟩,
         ⟨MetaNode.metaNameValue "doc" (LitNode.litStr "y")⟩]).name = none :=
  ⟨by decide, find_name_none_without_qualifying _ (by decide)⟩

/-- C9: `find_name` passes to `attr::mark_used` exactly the qualifying
annotations (`name = "<string literal>"`) of the field, in order — every
later conflicting one included, and no other annotation — independently of
which name, if any, the fold finally returns. -/
theorem find_name_marks_exactly_qualifying (attrs : List Attribute) :
    (find_name attrs).used = attrs.filter qualifies := by
  simpa using foldl_find_step_used attrs { name := none, warnings := [], used := [] }

/-! ### Lemmas about the hygiene rewrite -/

@[simp] theorem Path.global_mk (g : Bool) (s : List PathSegment) :
    (Path.mk g s).global = g := rfl

@[simp] theorem Path.segments_mk (g : Bool) (s : List PathSegment) :
    (Path.mk g s).segments = s := rfl

@[simp] theorem PathSegment.identifier_mk (i : String) (p : List Path) :
    (PathSegment.mk i p).identifier = i := rfl

@[simp] theorem PathSegment.parameters_mk (i : String) (p : List Path) :
    (PathSegment.mk i p).parameters = p := rfl

@[simp] theorem set_identifier_identifier (r : String) (s : PathSegment) :
    (set_identifier r s).identifier = r := by
  cases s; rfl

@[simp] theorem fold_segment_identifier (root : String) (s : PathSegment) :
    (fold_segment root s).identifier = s.identifier := by
  cases s; rfl

theorem fold_segments_map_ident (root : String) (segs : List PathSegment) :
    (fold_segments root segs).map PathSegment.identifier
      = segs.map PathSegment.identifier := by
  induction segs with
  | nil => rfl
  | cons s rest ih => simp [fold_segments, ih]

theorem fold_segment_set (root r : String) (s : PathSegment) :
    fold_segment root (set_identifier r s) = set_identifier r (fold_segment root s) := by
  cases s; rfl

theorem fold_segments_modify_at (root r : String) (xs : List PathSegment) :
    ∀ i, fold_segments root (modify_at xs i (set_identifier r))
      = modify_at (fold_segments root xs) i (set_identifier r) := by
  induction xs with
  | nil => intro i; rfl
  | cons x rest ih =>
    intro i
    cases i with
    | zero => simp [modify_at, fold_segments, fold_segment_set]
    | succ n => simp [modify_at, fold_segments, ih n]

theorem set_identifier_set (r : String) (s : PathSegment) :
    set_identifier r (set_identifier r s) = set_identifier r s := by
  cases s; rfl

theorem modify_at_modify_at (r : String) (xs : List PathSegment) :
    ∀ i, modify_at (modify_at xs i (set_identifier r)) i (set_identifier r)
      = modify_at xs i (set_identifier r) := by
  induction xs with
  | nil => intro i; rfl
  | cons x rest ih =>
    intro i
    cases i with
    | zero => simp [modify_at, set_identifier_set]
    | succ n => simp [modify_at, ih n]

mutual
theorem fold_path_clean_id (root : String) :
    ∀ p : Path, path_clean p = true → fold_path root p = p
  | Path.mk g segs, h => by
    simp only [path_clean, Bool.and_eq_true, Bool.not_eq_true'] at h
    obtain ⟨⟨h1, h2⟩, h3⟩ := h
    rw [fold_path, fold_segments_clean_id root segs h3]
    simp [fixup_path, h1, h2]
theorem fold_segments_clean_id (root : String) :
    ∀ segs : List PathSegment, segs_clean segs = true → fold_segments root segs = segs
  | [], _ => rfl
  | s :: rest, h => by
    simp only [segs_clean, Bool.and_eq_true] at h
    rw [fold_segments, fold_segment_clean_id root s h.1,
      fold_segments_clean_id root rest h.2]
theorem fold_segment_clean_id (root : String) :
    ∀ s : PathSegment, seg_clean s = true → fold_segment root s = s
  | PathSegment.mk i ps, h => by
    rw [fold_segment, fold_params_clean_id root ps (by simpa [seg_clean] using h)]
theorem fold_params_clean_id (root : String) :
    ∀ ps : List Path, params_clean ps = true → fold_params root ps = ps
  | [], _ => rfl
  | p :: rest, h => by
    simp only [params_clean, Bool.and_eq_true] at h
    rw [fold_params, fold_path_clean_id root p h.1, fold_params_clean_id root rest h.2]
end

mutual
theorem fold_path_idem_aux (root : String) (hroot : root ≠ "self") :
    ∀ p : Path, fold_path root (fold_path root p) = fold_path root p
  | Path.mk g segs => by
    have hidem : fold_segments root (fold_segments root segs) = fold_segments root segs :=
      fold_segments_idem_aux root hroot segs
    have hfs : (root == "self") = false := by
      simpa using hroot
    rw [fold_path]
    generalize hgen : fold_segments root segs = ss at hidem ⊢
    cases h1 : needs_fix ss with
    | true =>
      simp only [fixup_path, Path.segments_mk, h1, if_true]
      rw [fold_path, fold_segments_modify_at, hidem]
      cases ss with
      | nil => simp [needs_fix] at h1
      | cons s0 rest =>
        simp only [needs_fix, List.get?, Option.map_some, Option.getD_some] at h1 ⊢
        simp only [modify_at]
        cases hr : (root == EXTERN_CRATE_HACK) with
        | true =>
          simp [fixup_path, needs_fix, hr, modify_at, set_identifier_set]
        | false =>
          simp [fixup_path, needs_fix, needs_fix_self, hr, hfs]
    | false =>
      cases h2 : needs_fix_self ss with
      | true =>
        simp only [fixup_path, Path.segments_mk, h1, h2, if_true, if_false,
          Bool.false_eq_true]
        rw [fold_path, fold_segments_modify_at, hidem]
        cases ss with
        | nil => simp [needs_fix_self] at h2
        | cons s0 rest =>
          cases rest with
          | nil => simp [needs_fix_self] at h2
          | cons s1 rest2 =>
            simp [needs_fix, needs_fix_self] at h1 h2
            have hne : ("self" : String) ≠ EXTERN_CRATE_HACK := by decide
            simp only [modify_at]
            cases hr : (root == EXTERN_CRATE_HACK) with
            | true =>
              simp [fixup_path, needs_fix, needs_fix_self, hr, h1, h2.1, hne,
                modify_at, set_identifier_set]
            | false =>
              simp [fixup_path, needs_fix, needs_fix_self, hr, h1, h2.1, hne]
      | false =>
        simp only [fixup_path, Path.segments_mk, h1, h2, if_false, Bool.false_eq_true]
        rw [fold_path, hidem]
        simp [fixup_path, h1, h2]
theorem fold_segments_idem_aux (root : String) (hroot : root ≠ "self") :
    ∀ segs : List PathSegment,
      fold_segments root (fold_segments root segs) = fold_segments root segs
  | [] => rfl
  | s :: rest => by
    rw [fold_segments, fold_segments, fold_segment_idem_aux root hroot s,
      fold_segments_idem_aux root hroot rest]
theorem fold_segment_idem_aux (root : String) (hroot : root ≠ "self") :
    ∀ s : PathSegment, fold_segment root (fold_segment root s) = fold_segment root s
  | PathSegment.mk i ps => by
    rw [fold_segment, fold_segment, fold_params_idem_aux root hroot ps]
theorem fold_params_idem_aux (root : String) (hroot : root ≠ "self") :
    ∀ ps : List Path, fold_params root (fold_params root ps) = fold_params root ps
  | [] => rfl
  | p :: rest => by
    rw [fold_params, fold_params, fold_path_idem_aux root hroot p,
      fold_params_idem_aux root hroot rest]
end

/-! ### Claims about the hygiene rewrite -/

/-- C5: a path headed by the reserved marker `__gfx_extern_crate_hack` —
or by `self` followed by the marker — has that marker segment's identifier
replaced by the configured `path_root` and its global flag cleared, while
every other segment identifier is kept; internally generated references
therefore resolve through the unique generated module. -/
theorem fold_path_rewrites_marker (path_root : String) (g : Bool)
    (segs : List PathSegment) :
    ((segs.map PathSegment.identifier).get? 0 = some EXTERN_CRATE_HACK →
      (fold_path path_root (Path.mk g segs)).global = false ∧
      (fold_path path_root (Path.mk g segs)).segments.map PathSegment.identifier
        = (segs.map PathSegment.identifier).set 0 path_root) ∧
    ((segs.map PathSegment.identifier).get? 0 = some "self" ∧
     (segs.map PathSegment.identifier).get? 1 = some EXTERN_CRATE_HACK →
      (fold_path path_root (Path.mk g segs)).global = false ∧
      (fold_path path_root (Path.mk g segs)).segments.map PathSegment.identifier
        = (segs.map PathSegment.identifier).set 1 path_root) := by
  constructor
  · intro h
    cases segs with
    | nil => simp at h
    | cons s0 rest =>
      have hs0 : s0.identifier = EXTERN_CRATE_HACK := by simpa using h
      rw [fold_path, fold_segments]
      simp [fixup_path, needs_fix, hs0, modify_at, fold_segments_map_ident]
  · intro h
    obtain ⟨hself, hmk⟩ := h
    cases segs with
    | nil => simp at hself
    | cons s0 rest =>
      cases rest with
      | nil => simp at hmk
      | cons s1 rest2 =>
        have hs0 : s0.identifier = "self" := by simpa using hself
        have hs1 : s1.identifier = EXTERN_CRATE_HACK := by simpa using hmk
        have hne : ("self" : String) ≠ EXTERN_CRATE_HACK := by decide
        rw [fold_path, fold_segments, fold_segments]
        simp [fixup_path, needs_fix, needs_fix_self, hs0, hs1, hne, modify_at,
          fold_segments_map_ident]

/-- Witness for C5 at concrete inputs: `::__gfx_extern_crate_hack::Vertex`
is rewritten to `gfx_root::Vertex` (non-global), and
`self::__gfx_extern_crate_hack` to `self::gfx_root` (non-global). -/
theorem fold_path_rewrites_marker_witness :
    ((fold_path "gfx_root" (Path.mk true
        [PathSegment.mk EXTERN_CRATE_HACK [], PathSegment.mk "Vertex" []])).global = false ∧
     (fold_path "gfx_root" (Path.mk true
        [PathSegment.mk EXTERN_CRATE_HACK [], PathSegment.mk "Vertex" []])).segments.map
          PathSegment.identifier = ["gfx_root", "Vertex"]) ∧
    ((fold_path "gfx_root" (Path.mk true
        [PathSegment.mk "self" [], PathSegment.mk EXTERN_CRATE_HACK []])).global = false ∧
     (fold_path "gfx_root" (Path.mk true
        [PathSegment.mk "self" [], PathSegment.mk EXTERN_CRATE_HACK []])).segments.map
          PathSegment.identifier = ["self", "gfx_root"]) :=
  ⟨(fold_path_rewrites_marker "gfx_root" true
      [PathSegment.mk EXTERN_CRATE_HACK [], PathSegment.mk "Vertex" []]).1 (by decide),
   (fold_path_rewrites_marker "gfx_root" true
      [PathSegment.mk "self" [], PathSegment.mk EXTERN_CRATE_HACK []]).2
     ⟨by decide, by decide⟩⟩

/-- C6, counterexample: a path whose first segment is the user-visible
identifier `PhantomData` is NOT returned unchanged when a marker path sits
among its generic arguments — `noop_fold_path` re-enters `fold_path` on
every nested path, so `PhantomData<__gfx_extern_crate_hack::Resources>`
becomes `PhantomData<gfx_root::Resources>`. -/
theorem fold_path_alters_nested_marker_path :
    fold_path "gfx_root"
      (Path.mk false [PathSegment.mk "PhantomData"
        [Path.mk false [PathSegment.mk EXTERN_CRATE_HACK [],
                        PathSegment.mk "Resources" []]]])
    ≠ Path.mk false [PathSegment.mk "PhantomData"
        [Path.mk false [PathSegment.mk EXTERN_CRATE_HACK [],
                        PathSegment.mk "Resources" []]]] :=
  fun h => absurd (congrArg first_param_head h) (by decide)

/-- C6 as amended: for every path in which neither the path itself nor any
path nested in its generic arguments starts with the marker (or with
`self` followed by the marker) — i.e. every path built purely from
user-visible identifiers — `fold_path` returns the path unchanged: no
user-visible identifier is ever altered by the hygiene rewrite. -/
theorem fold_path_preserves_clean_paths (path_root : String) (p : Path)
    (h : path_clean p = true) : fold_path path_root p = p :=
  fold_path_clean_id path_root p h

/-- Witness for the amended C6 at a concrete input: the user path
`std::marker::PhantomData<u8>` is returned unchanged. -/
theorem fold_path_preserves_clean_paths_witness :
    path_clean (Path.mk true
      [PathSegment.mk "std" [], PathSegment.mk "marker" [],
       PathSegment.mk "PhantomData" [Path.mk false [PathSegment.mk "u8" []]]]) = true ∧
    fold_path "gfx_root" (Path.mk true
      [PathSegment.mk "std" [], PathSegment.mk "marker" [],
       PathSegment.mk "PhantomData" [Path.mk false [PathSegment.mk "u8" []]]])
    = Path.mk true
      [PathSegment.mk "std" [], PathSegment.mk "marker" [],
       PathSegment.mk "PhantomData" [Path.mk false [PathSegment.mk "u8" []]]] :=
  ⟨by decide, fold_path_preserves_clean_paths "gfx_root" _ (by decide)⟩

/-- C10, counterexample: with `path_root = "self"` the rewrite is not
idempotent. On `__gfx_extern_crate_hack::__gfx_extern_crate_hack` the
first pass yields `self::__gfx_extern_crate_hack`, which the second pass
rewrites again (the `self`-plus-marker rule now matches) to `self::self`. -/
theorem fold_path_not_idempotent_for_self_root :
    fold_path "self" (fold_path "self"
      (Path.mk false [PathSegment.mk EXTERN_CRATE_HACK [],
                      PathSegment.mk EXTERN_CRATE_HACK []]))
    ≠ fold_path "self"
      (Path.mk false [PathSegment.mk EXTERN_CRATE_HACK [],
                      PathSegment.mk EXTERN_CRATE_HACK []]) :=
  fun h => absurd (congrArg second_segment_ident h) (by decide)

/-- C10 as amended: for every `path_root` other than the identifier
`"self"` — the crate only ever passes the gensym of
`__gfx_extern_crate_hack` — `fold_path` is idempotent: a second
application of the hygiene pass never changes the result further. -/
theorem fold_path_idempotent (path_root : String) (hroot : path_root ≠ "self")
    (p : Path) :
    fold_path path_root (fold_path path_root p) = fold_path path_root p :=
  fold_path_idem_aux path_root hroot p

/-- Witness for the amended C10 at a concrete input: with the path root
the crate actually uses (the gensym text of the marker), rewriting the
marker path twice equals rewriting it once. -/
theorem fold_path_idempotent_witness :
    ("__gfx_extern_crate_hack" : String) ≠ "self" ∧
    fold_path "__gfx_extern_crate_hack" (fold_path "__gfx_extern_crate_hack"
      (Path.mk true [PathSegment.mk EXTERN_CRATE_HACK [],
                     PathSegment.mk "Resources" []]))
    = fold_path "__gfx_extern_crate_hack"
      (Path.mk true [PathSegment.mk EXTERN_CRATE_HACK [],
                     PathSegment.mk "Resources" []]) :=
  ⟨by decide, fold_path_idempotent "__gfx_extern_crate_hack" (by decide) _⟩

/-! ### Claims about the derivation pipeline -/

/-- C7: synthesis is deterministic — deriving from the same
StructureDeclaration under any two interner states (the only ambient state
the cited code touches, via `gensym_ident`) yields byte-identical
GeneratedCode, and the identifier produced by `extern_crate_hack` renders
to the same bytes; nothing in the output depends on randomness,
timestamps or memory addresses, which the model has no access to. -/
theorem derive_deterministic (decl : StructureDeclaration) (c1 c2 : Nat) :
    (derive decl c1).1 = (derive decl c2).1 ∧
    render_ident (extern_crate_hack c1).1 = render_ident (extern_crate_hack c2).1 := by
  constructor
  · cases h : build_table decl.fields <;>
      simp [derive, extern_crate_hack, gensym_ident, h, render_mod, render_item,
        render_ident, render_path_idents, str_to_ident, synthesize]
  · rfl

/-! Helper lemmas for the binding-table claims. -/

theorem build_entries_append_fst (xs ys : List FieldDeclaration) :
    (build_entries (xs ++ ys)).1 = (build_entries xs).1 ++ (build_entries ys).1 := by
  induction xs with
  | nil => simp [build_entries]
  | cons f rest ih =>
    cases h : classify f.ty <;> simp [build_entries, h, ih]

theorem build_entries_cons_ok_fst (f : FieldDeclaration)
    (rest : List FieldDeclaration) (tag : BindingKindTag)
    (h : classify f.ty = Except.ok tag) :
    (build_entries (f :: rest)).1
      = { fieldIdent := f.ident, logicalName := resolve_logical_name f,
          kind := tag, ty := f.ty } :: (build_entries rest).1 := by
  simp [build_entries, h]

theorem dup_diags_mem (l1 l2 l3 : List BindingEntry) (e1 e2 : BindingEntry)
    (hname : e2.logicalName = e1.logicalName) :
    Diagnostic.duplicateBindingName e2.logicalName e2.fieldIdent
      ∈ dup_diags (l1 ++ e1 :: l2 ++ e2 :: l3) := by
  induction l1 with
  | nil =>
    simp only [List.nil_append, dup_diags]
    apply List.mem_append_left
    apply List.mem_map_of_mem
    apply List.mem_filter.mpr
    exact ⟨List.mem_append_right l2 (List.mem_cons_self e2 l3), by simpa using hname⟩
  | cons x rest ih =>
    simp only [List.cons_append, dup_diags]
    exact List.mem_append_right _ ih

/-- C8 (settled against the spec-modelled builder): when two fields — both
of classifiable type — resolve to the same logical binding name,
`build_table` returns only diagnostics (no table), the set contains a
DuplicateBindingName diagnostic naming the conflicting logical name and
field, and the derivation returns those diagnostics without ever invoking
the Code Synthesizer (the synthesis branch of `derive` is not taken). -/
theorem build_table_reports_duplicate
    (pre mid suf : List FieldDeclaration) (fi fj : FieldDeclaration)
    (tagi tagj : BindingKindTag) (sname : String) (counter : Nat)
    (hfi : classify fi.ty = Except.ok tagi)
    (hfj : classify fj.ty = Except.ok tagj)
    (hname : resolve_logical_name fj = resolve_logical_name fi) :
    build_table (pre ++ fi :: mid ++ fj :: suf)
      = Except.error
          ((build_entries (pre ++ fi :: mid ++ fj :: suf)).2
            ++ dup_diags (build_entries (pre ++ fi :: mid ++ fj :: suf)).1) ∧
    Diagnostic.duplicateBindingName (resolve_logical_name fj) fj.ident
      ∈ (build_entries (pre ++ fi :: mid ++ fj :: suf)).2
          ++ dup_diags (build_entries (pre ++ fi :: mid ++ fj :: suf)).1 ∧
    (derive ⟨sname, pre ++ fi :: mid ++ fj :: suf⟩ counter).1
      = Except.error
          ((build_entries (pre ++ fi :: mid ++ fj :: suf)).2
            ++ dup_diags (build_entries (pre ++ fi :: mid ++ fj :: suf)).1) := by
  have hent : (build_entries (pre ++ fi :: mid ++ fj :: suf)).1
      = ((build_entries pre).1
        ++ ({ fieldIdent := fi.ident, logicalName := resolve_logical_name fi,
              kind := tagi, ty := fi.ty } : BindingEntry)
           :: (build_entries mid).1)
        ++ ({ fieldIdent := fj.ident, logicalName := resolve_logical_name fj,
              kind := tagj, ty := fj.ty } : BindingEntry)
           :: (build_entries suf).1 := by
    rw [build_entries_append_fst, build_entries_cons_ok_fst fj _ tagj hfj,
      build_entries_append_fst, build_entries_cons_ok_fst fi _ tagi hfi]
  have hmem : Diagnostic.duplicateBindingName (resolve_logical_name fj) fj.ident
      ∈ dup_diags (build_entries (pre ++ fi :: mid ++ fj :: suf)).1 := by
    rw [hent]
    exact dup_diags_mem _ _ _ _ _ (by simpa using hname)
  have hmem2 : Diagnostic.duplicateBindingName (resolve_logical_name fj) fj.ident
      ∈ (build_entries (pre ++ fi :: mid ++ fj :: suf)).2
        ++ dup_diags (build_entries (pre ++ fi :: mid ++ fj :: suf)).1 :=
    List.mem_append_right _ hmem
  have hne : (build_entries (pre ++ fi :: mid ++ fj :: suf)).2
      ++ dup_diags (build_entries (pre ++ fi :: mid ++ fj :: suf)).1 ≠ [] :=
    List.ne_nil_of_mem hmem2
  have hie : ((build_entries (pre ++ fi :: mid ++ fj :: suf)).2
      ++ dup_diags (build_entries (pre ++ fi :: mid ++ fj :: suf)).1).isEmpty = false := by
    cases hl : (build_entries (pre ++ fi :: mid ++ fj :: suf)).2
        ++ dup_diags (build_entries (pre ++ fi :: mid ++ fj :: suf)).1 with
    | nil => exact absurd hl hne
    | cons a l => rfl
  have hbt : build_table (pre ++ fi :: mid ++ fj :: suf)
      = Except.error
          ((build_entries (pre ++ fi :: mid ++ fj :: suf)).2
            ++ dup_diags (build_entries (pre ++ fi :: mid ++ fj :: suf)).1) := by
    simp only [build_table, hie, Bool.false_eq_true, if_false]
  refine ⟨hbt, hmem2, ?_⟩
  unfold derive
  rw [hbt]

/-- Witness for C8 at a concrete structure: two fields `color: Vec4` and
`tex: TextureHandle`, both annotated `name = "X"`, make `build_table`
return only diagnostics, among them `DuplicateBindingName "X" "tex"`, and
the derivation yields no GeneratedCode. -/
theorem build_table_reports_duplicate_witness :
    build_table [sample_field_a, sample_field_b]
      = Except.error
          ((build_entries [sample_field_a, sample_field_b]).2
            ++ dup_diags (build_entries [sample_field_a, sample_field_b]).1) ∧
    Diagnostic.duplicateBindingName "X" "tex"
      ∈ (build_entries [sample_field_a, sample_field_b]).2
          ++ dup_diags (build_entries [sample_field_a, sample_field_b]).1 ∧
    (derive ⟨"Params", [sample_field_a, sample_field_b]⟩ 0).1
      = Except.error
          ((build_entries [sample_field_a, sample_field_b]).2
            ++ dup_diags (build_entries [sample_field_a, sample_field_b]).1) :=
  build_table_reports_duplicate [] [] [] sample_field_a sample_field_b
    BindingKindTag.uniformVector BindingKindTag.texture "Params" 0 rfl rfl (by decide)

end Gfx
